import Mathlib

set_option maxRecDepth 8192

/-! A functional model of the browser-automation session server in
`src/server.py`: the `SessionManager` store with its asset recorder
(`add_screenshot` / `add_video` / `add_trace`), session teardown
(`close_session`), the checkpointed sequence executor behind
`POST /api/sessions/.../sequence` (`execute_sequence`), and the
stale-session sweep behind `POST /api/sessions/cleanup-old`
(`cleanup_old_sessions`).

Modelling conventions:
* Wall-clock instants (`time.time()`, `datetime.now().isoformat()`) are a
  single `Nat` epoch passed explicitly as `now`; the isoformat round trip
  performed by the sweep is the identity on such instants.
* The filesystem is reduced to what the server reads and writes through
  `metadata.json` files: `ServerState.disk` maps a session directory
  (keyed by the id in its name) to the parsed content of its metadata
  file, and `ServerState.archived` maps an archive directory name to the
  metadata file it contains after the `shutil.move`.  The `os.rename` of
  a raw engine-produced video file is a filesystem action outside the
  metadata model.
* Playwright page calls are abstracted by an environment `PageEnv` that
  assigns to every step index either success (`none`) or a raised
  exception message (`some msg`); screenshot captures themselves are
  modelled as always succeeding.  Every page call the executor issues is
  recorded in an `EngineCall` trace so that claims about which steps were
  executed can be stated.
-/

/-- One entry of a `metadata.json` asset array (screenshots, videos or
traces).  Screenshot entries carry `action` and `url`; video and trace
entries do not, which the two `Option` fields record. -/
structure AssetEntry where
  filename : String
  filepath : String
  action : Option String := none
  description : String
  url : Option String := none
  sequence : Nat
  timestamp : Nat
deriving Repr, DecidableEq

/-- Parsed content of a session's `metadata.json` file, with the fields
written by `create_session` and mutated by the asset recorder, close and
sweep. -/
structure Metadata where
  session_id : String
  created_at : Nat
  browser_type : String
  headless : Bool
  viewport_width : Nat
  viewport_height : Nat
  record_video : Bool
  status : String
  total_actions : Nat
  screenshots : List AssetEntry
  videos : List AssetEntry
  traces : List AssetEntry
  last_activity : Nat
  session_dir : String
deriving Repr, DecidableEq

/-- In-memory per-session state held in `SessionManager.sessions`.  The
playwright, browser, context and page handles are external resources whose
behaviour the executor receives through a `PageEnv`; `engine_video_files`
models the raw `.webm` files playwright wrote into the session's `videos/`
directory, which `close_session` scans. -/
structure SessionData where
  screenshots : List String
  videos : List String
  traces : List String
  created_at : Nat
  action_count : Nat
  last_activity : Nat
  recording_video : Bool
  engine_video_files : List String
  metadata : Metadata
deriving Repr, DecidableEq

/-- Whole-server state: the in-memory active store plus the persisted
filesystem seen through metadata files. -/
structure ServerState where
  sessions : List (String × SessionData)
  disk : List (String × Metadata)
  archived : List (String × Metadata)
deriving Repr, DecidableEq

/-- Association-list lookup keyed on the first component (python
`dict.get`). -/
def storeFind {α : Type} (l : List (String × α)) (k : String) : Option α :=
  match l with
  | [] => none
  | (k₀, v) :: rest => if k₀ = k then some v else storeFind rest k

/-- Replace the value bound to a key where present, leaving all other
bindings unchanged (python mutation of an entry already in the dict). -/
def storeUpdate {α : Type} (l : List (String × α)) (k : String) (v : α) : List (String × α) :=
  match l with
  | [] => []
  | (k₀, v₀) :: rest =>
    if k₀ = k then (k, v) :: storeUpdate rest k v else (k₀, v₀) :: storeUpdate rest k v

/-- Bind a key, overwriting an existing binding or appending a fresh one
(python `d[k] = v`, or opening a file for writing). -/
def storeInsert {α : Type} (l : List (String × α)) (k : String) (v : α) : List (String × α) :=
  match l with
  | [] => [(k, v)]
  | (k₀, v₀) :: rest => if k₀ = k then (k, v) :: rest else (k₀, v₀) :: storeInsert rest k v

/-- Remove the binding of a key (python `del d[k]`, or a directory moved
away). -/
def storeErase {α : Type} (l : List (String × α)) (k : String) : List (String × α) :=
  match l with
  | [] => []
  | (k₀, v₀) :: rest => if k₀ = k then rest else (k₀, v₀) :: storeErase rest k

/-- Python format `{seq:03d}`: decimal, zero-padded to width three. -/
def pad3 (n : Nat) : String :=
  if n < 10 then "00" ++ toString n
  else if n < 100 then "0" ++ toString n
  else toString n

/-- Python `.replace(" ", "_")` with a one-character pattern: every space
character becomes an underscore. -/
def sanitize (s : String) : String :=
  ⟨s.data.map (fun c => if c = ' ' then '_' else c)⟩

/-- The server's recording root `/opt/code-server/recordings`. -/
def recordingsBase : String := "/opt/code-server/recordings"

/-- Which of the three metadata asset arrays an operation addresses (the
string `asset_type` argument of `_get_next_sequence_number`). -/
inductive AssetKind where
  | screenshots
  | videos
  | traces
deriving Repr, DecidableEq

/-- Select the metadata array named by an `AssetKind`. -/
def Metadata.assets (md : Metadata) : AssetKind → List AssetEntry
  | .screenshots => md.screenshots
  | .videos => md.videos
  | .traces => md.traces

namespace SessionManager

/-- `_save_session_metadata`: whole-file overwrite of the session's
`metadata.json`. -/
def saveSessionMetadata (st : ServerState) (session_id : String) (metadata : Metadata) : ServerState :=
  { st with disk := storeInsert st.disk session_id metadata }

/-- `_get_next_sequence_number`: next sequential number for asset naming,
read off the in-memory session's metadata array for that kind; `1` when
the session is not in the store. -/
def getNextSequenceNumber (sessions : List (String × SessionData)) (session_id : String)
    (asset_type : AssetKind) : Nat :=
  match storeFind sessions session_id with
  | none => 1
  | some session => (session.metadata.assets asset_type).length + 1

/-- `add_screenshot`: record a screenshot asset with sequential naming,
append it to the in-memory lists and the metadata arrays, bump
`total_actions` and both last-activity stamps, and rewrite
`metadata.json`; `None` when the session is absent. -/
def add_screenshot (now : Nat) (st : ServerState) (session_id action description url : String) :
    Option String × ServerState :=
  match storeFind st.sessions session_id with
  | none => (none, st)
  | some session =>
    let seq_num := getNextSequenceNumber st.sessions session_id .screenshots
    let filename := sanitize (pad3 seq_num ++ "_" ++ action ++ "_" ++ description ++ ".png")
    let session_dir := session.metadata.session_dir
    let filepath := session_dir ++ "/screenshots/" ++ filename
    let screenshot_entry : AssetEntry :=
      { filename := filename, filepath := filepath, action := some action,
        description := description, url := some url, sequence := seq_num, timestamp := now }
    let metadata₁ :=
      { session.metadata with
          screenshots := session.metadata.screenshots ++ [screenshot_entry],
          total_actions := session.metadata.total_actions + 1,
          last_activity := now }
    let session₁ :=
      { session with
          screenshots := session.screenshots ++ [filepath],
          last_activity := now,
          metadata := metadata₁ }
    (some filepath,
      saveSessionMetadata { st with sessions := storeUpdate st.sessions session_id session₁ }
        session_id metadata₁)

/-- `add_video`: record a video asset with sequential naming, append it to
the in-memory list and the metadata array, refresh the metadata
last-activity stamp, and rewrite `metadata.json`; `None` when the session
is absent.  Unlike `add_screenshot` it touches neither `total_actions` nor
the in-memory `last_activity` epoch. -/
def add_video (now : Nat) (st : ServerState) (session_id description : String) :
    Option String × ServerState :=
  match storeFind st.sessions session_id with
  | none => (none, st)
  | some session =>
    let seq_num := getNextSequenceNumber st.sessions session_id .videos
    let filename := sanitize (pad3 seq_num ++ "_" ++ description ++ ".webm")
    let session_dir := session.metadata.session_dir
    let filepath := session_dir ++ "/videos/" ++ filename
    let video_entry : AssetEntry :=
      { filename := filename, filepath := filepath, description := description,
        sequence := seq_num, timestamp := now }
    let metadata₁ :=
      { session.metadata with
          videos := session.metadata.videos ++ [video_entry],
          last_activity := now }
    let session₁ :=
      { session with
          videos := session.videos ++ [filepath],
          metadata := metadata₁ }
    (some filepath,
      saveSessionMetadata { st with sessions := storeUpdate st.sessions session_id session₁ }
        session_id metadata₁)

/-- `add_trace`: record a trace asset with sequential naming, append it to
the in-memory list and the metadata array, refresh the metadata
last-activity stamp, and rewrite `metadata.json`; `None` when the session
is absent.  Like `add_video` it leaves `total_actions` and the in-memory
epoch alone. -/
def add_trace (now : Nat) (st : ServerState) (session_id description : String) :
    Option String × ServerState :=
  match storeFind st.sessions session_id with
  | none => (none, st)
  | some session =>
    let seq_num := getNextSequenceNumber st.sessions session_id .traces
    let filename := sanitize (pad3 seq_num ++ "_" ++ description ++ ".zip")
    let session_dir := session.metadata.session_dir
    let filepath := session_dir ++ "/traces/" ++ filename
    let trace_entry : AssetEntry :=
      { filename := filename, filepath := filepath, description := description,
        sequence := seq_num, timestamp := now }
    let metadata₁ :=
      { session.metadata with
          traces := session.metadata.traces ++ [trace_entry],
          last_activity := now }
    let session₁ :=
      { session with
          traces := session.traces ++ [filepath],
          metadata := metadata₁ }
    (some filepath,
      saveSessionMetadata { st with sessions := storeUpdate st.sessions session_id session₁ }
        session_id metadata₁)

/-- The video-finalization prologue of `close_session`: when the metadata
says video was recorded and playwright actually produced a `.webm` file,
register it through `add_video` (the subsequent `os.rename` of the raw
file is a filesystem action outside the metadata model). -/
def finalizeVideo (now : Nat) (st : ServerState) (session_id : String) (session : SessionData) :
    ServerState :=
  if session.metadata.record_video then
    match session.engine_video_files with
    | [] => st
    | _ :: _ => (add_video now st session_id "session_recording").2
  else st

/-- `close_session`: when the session is in the store, finalize a recorded
video if playwright produced one, set the status to `completed`, refresh
last-activity, persist the metadata, release the engine resources and
delete the session from the store.  Absent ids are a no-op thanks to the
membership guard. -/
def close_session (now : Nat) (st : ServerState) (session_id : String) : ServerState :=
  match storeFind st.sessions session_id with
  | none => st
  | some session =>
    let st₁ := finalizeVideo now st session_id session
    match storeFind st₁.sessions session_id with
    | none => st₁
    | some session₁ =>
      let metadata₁ := { session₁.metadata with status := "completed", last_activity := now }
      let st₂ := saveSessionMetadata
        { st₁ with sessions := storeUpdate st₁.sessions session_id { session₁ with metadata := metadata₁ } }
        session_id metadata₁
      { st₂ with sessions := storeErase st₂.sessions session_id }

end SessionManager

/-- Response of `DELETE /api/sessions/{session_id}`: the 404 raised when
the id is not in the active store, or the success payload. -/
inductive CloseResponse where
  | notFound
  | closed (session_id : String)
deriving Repr, DecidableEq

/-- The `close_session` endpoint: look up the id in the active store, 404
when absent, otherwise delegate to `SessionManager.close_session`. -/
def close_session_endpoint (now : Nat) (st : ServerState) (session_id : String) :
    CloseResponse × ServerState :=
  match storeFind st.sessions session_id with
  | none => (.notFound, st)
  | some _ => (.closed session_id, SessionManager.close_session now st session_id)

/-- Outcome environment for the executor's playwright page calls: `none`
at index `i` means the main page call of step `i` succeeds, `some msg`
means it raises an exception rendered as `msg` (selector miss, navigation
timeout, dead engine, ...). -/
def PageEnv : Type := Nat → Option String

/-- One action of the request body of the sequence endpoint (the pydantic
`SequenceAction`), with its defaults. -/
structure SequenceAction where
  action : String
  url : Option String := none
  selector : Option String := none
  text : Option String := none
  timeout : Option Nat := some 5000
  screenshot_after : Bool := false
  wait_for_analysis : Bool := false
deriving Repr, DecidableEq

/-- One entry of `action_results`: the step dict built by the executor
loop, with the keys each branch sets. -/
structure StepResult where
  action : String
  step : Nat
  status : String
  url : Option String := none
  selector : Option String := none
  text : Option String := none
  timeout : Option Nat := none
  message : Option String := none
  screenshot_path : Option String := none
deriving Repr, DecidableEq

/-- An engine (playwright page) call issued by the executor, tagged with
the index of the step it belongs to. -/
inductive EngineCall where
  | goto (i : Nat) (url : Option String) (timeout : Option Nat)
  | click (i : Nat) (selector : Option String) (timeout : Option Nat)
  | fill (i : Nat) (selector : Option String) (text : Option String)
  | wait (i : Nat) (timeout : Option Nat)
  | screenshot (i : Nat) (path : String)
deriving Repr, DecidableEq

/-- The step index an engine call belongs to. -/
def EngineCall.step : EngineCall → Nat
  | .goto i _ _ => i
  | .click i _ _ => i
  | .fill i _ _ => i
  | .wait i _ => i
  | .screenshot i _ => i

/-- Path of the checkpoint screenshot of step `i`
(`session_{id}_analysis_{i}.png` under the global screenshots dir). -/
def analysisPath (session_id : String) (i : Nat) : String :=
  recordingsBase ++ "/screenshots/session_" ++ session_id ++ "_analysis_" ++ toString i ++ ".png"

/-- Path of the `screenshot_after` capture of step `i`. -/
def stepShotPath (session_id : String) (i : Nat) : String :=
  recordingsBase ++ "/screenshots/session_" ++ session_id ++ "_step_" ++ toString i ++ ".png"

/-- Path of the screenshot the exception handler of `execute_sequence`
captures. -/
def errorShotPath (session_id : String) : String :=
  recordingsBase ++ "/screenshots/session_" ++ session_id ++ "_error.png"

/-- The step result the checkpoint branch appends for step `i`. -/
def analysisResult (session_id : String) (i : Nat) : StepResult :=
  { action := "wait_for_screenshot_analysis", step := i, status := "waiting_for_analysis",
    screenshot_path := some (analysisPath session_id i),
    message := some "Execution paused - analyze screenshot and continue with next API call" }

/-- Result of processing one action of the executor loop: continue to the
next iteration, return the paused response, or propagate an exception to
the handler. -/
inductive StepOut where
  | next (r : StepResult) (sess : SessionData) (new_shots : List String) (calls : List EngineCall)
  | pausedAt (r : StepResult) (spath : String) (sess : SessionData) (calls : List EngineCall)
  | failed (msg : String) (calls : List EngineCall)
deriving Repr, DecidableEq

/-- The `screenshot_after` epilogue of one loop iteration: capture a
per-step screenshot, record it on the session and attach it to the step
result. -/
def finishStep (session_id : String) (i : Nat) (a : SequenceAction) (r : StepResult)
    (sess : SessionData) (calls : List EngineCall) : StepOut :=
  if a.screenshot_after then
    let p := stepShotPath session_id i
    .next { r with screenshot_path := some p }
      { sess with screenshots := sess.screenshots ++ [p] } [p] (calls ++ [.screenshot i p])
  else
    .next r sess [] calls

/-- One iteration of the `execute_sequence` action loop: the if/elif chain
over `action.action`, with the checkpoint branch returning early and the
unknown branch recording an error result without raising. -/
def runStep (env : PageEnv) (session_id : String) (i : Nat) (a : SequenceAction)
    (sess : SessionData) : StepOut :=
  if a.action = "goto" then
    match env i with
    | some msg => .failed msg [.goto i a.url a.timeout]
    | none => finishStep session_id i a
        { action := a.action, step := i, status := "success", url := a.url }
        sess [.goto i a.url a.timeout]
  else if a.action = "click" then
    match env i with
    | some msg => .failed msg [.click i a.selector a.timeout]
    | none => finishStep session_id i a
        { action := a.action, step := i, status := "success", selector := a.selector }
        sess [.click i a.selector a.timeout]
  else if a.action = "type" then
    match env i with
    | some msg => .failed msg [.fill i a.selector a.text]
    | none => finishStep session_id i a
        { action := a.action, step := i, status := "success", selector := a.selector, text := a.text }
        sess [.fill i a.selector a.text]
  else if a.action = "wait" then
    match env i with
    | some msg => .failed msg [.wait i a.timeout]
    | none => finishStep session_id i a
        { action := a.action, step := i, status := "success", timeout := a.timeout }
        sess [.wait i a.timeout]
  else if a.action = "wait_for_screenshot_analysis" then
    let spath := analysisPath session_id i
    .pausedAt
      { action := a.action, step := i, status := "waiting_for_analysis",
        screenshot_path := some spath,
        message := some "Execution paused - analyze screenshot and continue with next API call" }
      spath { sess with screenshots := sess.screenshots ++ [spath] } [.screenshot i spath]
  else
    finishStep session_id i a
      { action := a.action, step := i, status := "error",
        message := some ("Unknown action: " ++ a.action) }
      sess []

/-- Response of the sequence endpoint: the 404 for an unknown session, the
completed payload, the `paused_for_analysis` payload, or the structured
error payload built by the exception handler. -/
inductive SeqResponse where
  | notFound
  | completed (session_id : String) (actions_executed : Nat)
      (action_results : List StepResult) (screenshots : List String)
  | pausedForAnalysis (session_id : String) (current_step : Nat)
      (screenshot_for_analysis : String) (next_actions : List SequenceAction)
      (completed_actions : List StepResult)
  | error (session_id : String) (error : String) (error_screenshot : String)
      (completed_actions : List StepResult)
deriving Repr, DecidableEq

/-- The `execute_sequence` action loop together with its surrounding
try/except: `i` is the enumeration index, `acc` the accumulated
`action_results`, `shots` the local screenshots list and `tr` the engine
calls issued so far. -/
def goSeq (env : PageEnv) (session_id : String) :
    List SequenceAction → Nat → SessionData → List StepResult → List String →
    List EngineCall → SeqResponse × SessionData × List EngineCall
  | [], _, sess, acc, shots, tr => (.completed session_id acc.length acc shots, sess, tr)
  | a :: rest, i, sess, acc, shots, tr =>
    match runStep env session_id i a sess with
    | .next r sess₁ new_shots calls =>
        goSeq env session_id rest (i + 1) sess₁ (acc ++ [r]) (shots ++ new_shots) (tr ++ calls)
    | .pausedAt r spath sess₁ calls =>
        (.pausedForAnalysis session_id i spath rest (acc ++ [r]), sess₁, tr ++ calls)
    | .failed msg calls =>
        (.error session_id msg (errorShotPath session_id) acc, sess,
          tr ++ calls ++ [.screenshot i (errorShotPath session_id)])

/-- `POST /api/sessions/{session_id}/sequence`: look up the session, 404
when absent, otherwise run the action loop from index 0; the store then
holds the session object the loop mutated. -/
def execute_sequence (env : PageEnv) (st : ServerState) (session_id : String)
    (actions : List SequenceAction) : SeqResponse × ServerState × List EngineCall :=
  match storeFind st.sessions session_id with
  | none => (.notFound, st, [])
  | some sess =>
    let out := goSeq env session_id actions 0 sess [] [] []
    (out.1, { st with sessions := storeUpdate st.sessions session_id out.2.1 }, out.2.2)

/-- One entry of the `cleaned_sessions` response array of the sweep. -/
structure CleanedEntry where
  session_id : String
  last_activity : Nat
  archived_to : String
deriving Repr, DecidableEq

/-- Name of the archive directory a swept session is moved to:
`archived/session_{session_id}_{int(last_activity)}`. -/
def archivePath (session_id : String) (last_activity : Nat) : String :=
  recordingsBase ++ "/archived/session_" ++ session_id ++ "_" ++ toString last_activity

/-- State change of the sweep for one stale session directory `dir_id`
with parsed metadata `md`: close the session when `md.session_id` is
still in the active store (which rewrites its metadata file), then move
the directory — with the metadata file it contains at that point — to
the archive root. -/
def sweepStepState (now : Nat) (dir_id : String) (md : Metadata) (st : ServerState) : ServerState :=
  let st₁ :=
    if (storeFind st.sessions md.session_id).isSome then
      SessionManager.close_session now st md.session_id
    else st
  { st₁ with
      disk := storeErase st₁.disk dir_id,
      archived := st₁.archived ++
        [(archivePath md.session_id md.last_activity, (storeFind st₁.disk dir_id).getD md)] }

/-- Body of the `cleanup_old_sessions` sweep: iterate over the persisted
session directories (the glob result, as key/metadata pairs) in order;
for each whose metadata last-activity is strictly older than the maximum
age, close it when it is still in the active store and move its directory
under the archive root. -/
def cleanupGo (now max_age_seconds : Nat) :
    List (String × Metadata) → ServerState → List CleanedEntry →
    List CleanedEntry × ServerState
  | [], st, acc => (acc, st)
  | (dir_id, md) :: rest, st, acc =>
    if max_age_seconds < now - md.last_activity then
      cleanupGo now max_age_seconds rest (sweepStepState now dir_id md st)
        (acc ++ [{ session_id := md.session_id, last_activity := md.last_activity,
                   archived_to := archivePath md.session_id md.last_activity }])
    else
      cleanupGo now max_age_seconds rest st acc

/-- `POST /api/sessions/cleanup-old`: sweep every persisted session
directory, archiving those whose metadata last-activity is strictly older
than `max_age_hours` hours. -/
def cleanup_old_sessions (now : Nat) (max_age_hours : Nat) (st : ServerState) :
    List CleanedEntry × ServerState :=
  cleanupGo now (max_age_hours * 3600) st.disk st []

/-- A sequence action is recognized when its tag is one of the five
variants the executor's if/elif chain handles. -/
def recognizedAction (a : SequenceAction) : Prop :=
  a.action = "goto" ∨ a.action = "click" ∨ a.action = "type" ∨ a.action = "wait" ∨
    a.action = "wait_for_screenshot_analysis"

instance (a : SequenceAction) : Decidable (recognizedAction a) := by
  unfold recognizedAction
  infer_instance

/-- The session object `add_screenshot` leaves in the store for a session
it found: both screenshot lists grow by the new path/entry, the action
counter is bumped and both last-activity stamps are refreshed. -/
def screenshotAdded (now : Nat) (action description url : String) (s : SessionData) : SessionData :=
  let seq := s.metadata.screenshots.length + 1
  let filename := sanitize (pad3 seq ++ "_" ++ action ++ "_" ++ description ++ ".png")
  let filepath := s.metadata.session_dir ++ "/screenshots/" ++ filename
  { s with
      screenshots := s.screenshots ++ [filepath],
      last_activity := now,
      metadata := { s.metadata with
        screenshots := s.metadata.screenshots ++
          [{ filename := filename, filepath := filepath, action := some action,
             description := description, url := some url, sequence := seq, timestamp := now }],
        total_actions := s.metadata.total_actions + 1,
        last_activity := now } }

/-- The session object `add_video` leaves in the store for a session it
found: the video lists grow, only the metadata last-activity stamp is
refreshed, and `total_actions` is untouched. -/
def videoAdded (now : Nat) (description : String) (s : SessionData) : SessionData :=
  let seq := s.metadata.videos.length + 1
  let filename := sanitize (pad3 seq ++ "_" ++ description ++ ".webm")
  let filepath := s.metadata.session_dir ++ "/videos/" ++ filename
  { s with
      videos := s.videos ++ [filepath],
      metadata := { s.metadata with
        videos := s.metadata.videos ++
          [{ filename := filename, filepath := filepath, description := description,
             sequence := seq, timestamp := now }],
        last_activity := now } }

/-- The session object `add_trace` leaves in the store for a session it
found, mirroring `videoAdded` for the traces arrays. -/
def traceAdded (now : Nat) (description : String) (s : SessionData) : SessionData :=
  let seq := s.metadata.traces.length + 1
  let filename := sanitize (pad3 seq ++ "_" ++ description ++ ".zip")
  let filepath := s.metadata.session_dir ++ "/traces/" ++ filename
  { s with
      traces := s.traces ++ [filepath],
      metadata := { s.metadata with
        traces := s.metadata.traces ++
          [{ filename := filename, filepath := filepath, description := description,
             sequence := seq, timestamp := now }],
        last_activity := now } }

/-- The state after three consecutive `add_screenshot` calls with the same
labels (the three-screenshot scenario). -/
def threeShots (now₁ now₂ now₃ : Nat) (st : ServerState) (session_id : String) : ServerState :=
  (SessionManager.add_screenshot now₃
    (SessionManager.add_screenshot now₂
      (SessionManager.add_screenshot now₁ st session_id "nav" "home page" "https://example.com").2
      session_id "nav" "home page" "https://example.com").2
    session_id "nav" "home page" "https://example.com").2

/-- What the paused response of a checkpoint run looks like: the executor
pauses at index `pre.length`, returns the checkpoint screenshot path, the
untouched suffix `rest` as continuation, one step result per processed
prior action plus the `waiting_for_analysis` record, and no engine call
belongs to any step beyond the checkpoint. -/
def PausedConclusion (env : PageEnv) (st : ServerState) (session_id : String)
    (pre : List SequenceAction) (ck : SequenceAction) (rest : List SequenceAction) : Prop :=
  ∃ rs sess₁ tr,
    execute_sequence env st session_id (pre ++ ck :: rest) =
      (SeqResponse.pausedForAnalysis session_id pre.length
         (analysisPath session_id pre.length) rest
         (rs ++ [analysisResult session_id pre.length]),
       { st with sessions := storeUpdate st.sessions session_id sess₁ }, tr) ∧
    (rs ++ [analysisResult session_id pre.length]).length = pre.length + 1 ∧
    rs.map StepResult.step = List.range' 0 pre.length ∧
    rs.map StepResult.action = pre.map SequenceAction.action ∧
    rest = (pre ++ ck :: rest).drop (pre.length + 1) ∧
    (∀ c ∈ tr, EngineCall.step c ≤ pre.length)

/-- What the error response of a failing run looks like: the executor
stops at the failing index `pre.length`, captures the error screenshot,
returns the step results completed so far, and the session object is still
in the active store afterwards. -/
def ErrorConclusion (env : PageEnv) (st : ServerState) (session_id : String)
    (pre : List SequenceAction) (bad : SequenceAction) (rest : List SequenceAction)
    (msg : String) : Prop :=
  ∃ rs sess₁ tr,
    execute_sequence env st session_id (pre ++ bad :: rest) =
      (SeqResponse.error session_id msg (errorShotPath session_id) rs,
       { st with sessions := storeUpdate st.sessions session_id sess₁ }, tr) ∧
    rs.length = pre.length ∧
    rs.map StepResult.step = List.range' 0 pre.length ∧
    EngineCall.screenshot pre.length (errorShotPath session_id) ∈ tr ∧
    (∀ c ∈ tr, EngineCall.step c ≤ pre.length) ∧
    storeFind (execute_sequence env st session_id (pre ++ bad :: rest)).2.1.sessions session_id =
      some sess₁

/-- What a run over unrecognized actions looks like: every action yields
an error-status step result with an explanatory message, the run is not
aborted, and the overall response is `completed`. -/
def UnknownConclusion (env : PageEnv) (st : ServerState) (session_id : String)
    (actions : List SequenceAction) : Prop :=
  ∃ rs shots sess₁ tr,
    execute_sequence env st session_id actions =
      (SeqResponse.completed session_id actions.length rs shots,
       { st with sessions := storeUpdate st.sessions session_id sess₁ }, tr) ∧
    rs.length = actions.length ∧
    rs.map StepResult.step = List.range' 0 actions.length ∧
    (∀ r ∈ rs, r.status = "error") ∧
    rs.map StepResult.message = actions.map (fun a => some ("Unknown action: " ++ a.action))

/-- Gapless sequence numbering for every asset kind: one addition of a
kind extends that kind's gapless 1-based sequence array by the next
number, additions of either other kind leave the arrays of the remaining
kinds untouched (so interleaving cannot disturb a kind's numbering), and
three consecutive screenshot additions starting from an empty array yield
the 001/002/003 filenames in order. -/
def GaplessConclusion (now₁ now₂ now₃ : Nat) (st : ServerState) (session_id : String)
    (s : SessionData) : Prop :=
  ((s.metadata.screenshots.map AssetEntry.sequence =
      List.range' 1 s.metadata.screenshots.length) →
    ∀ a d u, ∃ s₁,
      storeFind (SessionManager.add_screenshot now₁ st session_id a d u).2.sessions session_id =
        some s₁ ∧
      s₁.metadata.screenshots.map AssetEntry.sequence =
        List.range' 1 (s.metadata.screenshots.length + 1) ∧
      s₁.metadata.screenshots.length = s.metadata.screenshots.length + 1) ∧
  ((s.metadata.videos.map AssetEntry.sequence = List.range' 1 s.metadata.videos.length) →
    ∀ d, ∃ s₁,
      storeFind (SessionManager.add_video now₁ st session_id d).2.sessions session_id = some s₁ ∧
      s₁.metadata.videos.map AssetEntry.sequence =
        List.range' 1 (s.metadata.videos.length + 1) ∧
      s₁.metadata.videos.length = s.metadata.videos.length + 1) ∧
  ((s.metadata.traces.map AssetEntry.sequence = List.range' 1 s.metadata.traces.length) →
    ∀ d, ∃ s₁,
      storeFind (SessionManager.add_trace now₁ st session_id d).2.sessions session_id = some s₁ ∧
      s₁.metadata.traces.map AssetEntry.sequence =
        List.range' 1 (s.metadata.traces.length + 1) ∧
      s₁.metadata.traces.length = s.metadata.traces.length + 1) ∧
  (∀ d, ∃ s₁,
      storeFind (SessionManager.add_video now₁ st session_id d).2.sessions session_id = some s₁ ∧
      s₁.metadata.screenshots = s.metadata.screenshots ∧
      s₁.metadata.traces = s.metadata.traces) ∧
  (∀ d, ∃ s₁,
      storeFind (SessionManager.add_trace now₁ st session_id d).2.sessions session_id = some s₁ ∧
      s₁.metadata.screenshots = s.metadata.screenshots ∧
      s₁.metadata.videos = s.metadata.videos) ∧
  (∀ a d u, ∃ s₁,
      storeFind (SessionManager.add_screenshot now₁ st session_id a d u).2.sessions session_id =
        some s₁ ∧
      s₁.metadata.videos = s.metadata.videos ∧
      s₁.metadata.traces = s.metadata.traces) ∧
  (s.metadata.screenshots = [] →
    ∃ s₃,
      storeFind (threeShots now₁ now₂ now₃ st session_id).sessions session_id = some s₃ ∧
      s₃.metadata.screenshots.map AssetEntry.filename =
        ["001_nav_home_page.png", "002_nav_home_page.png", "003_nav_home_page.png"] ∧
      s₃.metadata.screenshots.map AssetEntry.sequence = [1, 2, 3] ∧
      s₃.metadata.screenshots.length = 3)

/-- What each asset recorder does for a session in the store: it returns a
path, grows the matching metadata array by one, refreshes the metadata
last-activity stamp, and the rewritten metadata file equals the in-memory
metadata when the call returns; only `add_screenshot` bumps
`total_actions`, while `add_video` and `add_trace` leave it unchanged. -/
def AddAssetConclusion (now : Nat) (st : ServerState) (session_id : String)
    (s : SessionData) : Prop :=
  (∀ a d u, ∃ p s₁,
      (SessionManager.add_screenshot now st session_id a d u).1 = some p ∧
      storeFind (SessionManager.add_screenshot now st session_id a d u).2.sessions session_id =
        some s₁ ∧
      s₁.metadata.screenshots.length = s.metadata.screenshots.length + 1 ∧
      s₁.metadata.total_actions = s.metadata.total_actions + 1 ∧
      s₁.metadata.last_activity = now ∧
      storeFind (SessionManager.add_screenshot now st session_id a d u).2.disk session_id =
        some s₁.metadata) ∧
  (∀ d, ∃ p s₁,
      (SessionManager.add_video now st session_id d).1 = some p ∧
      storeFind (SessionManager.add_video now st session_id d).2.sessions session_id = some s₁ ∧
      s₁.metadata.videos.length = s.metadata.videos.length + 1 ∧
      s₁.metadata.total_actions = s.metadata.total_actions ∧
      s₁.metadata.last_activity = now ∧
      storeFind (SessionManager.add_video now st session_id d).2.disk session_id =
        some s₁.metadata) ∧
  (∀ d, ∃ p s₁,
      (SessionManager.add_trace now st session_id d).1 = some p ∧
      storeFind (SessionManager.add_trace now st session_id d).2.sessions session_id = some s₁ ∧
      s₁.metadata.traces.length = s.metadata.traces.length + 1 ∧
      s₁.metadata.total_actions = s.metadata.total_actions ∧
      s₁.metadata.last_activity = now ∧
      storeFind (SessionManager.add_trace now st session_id d).2.disk session_id =
        some s₁.metadata)

/-- How `_get_next_sequence_number` actually behaves: for a session in the
store it is the in-memory metadata array length plus one (hence the
persisted count plus one whenever the in-memory metadata coincides with
the persisted file), and for a session absent from the store it restarts
at `1` regardless of what is persisted on disk. -/
def NextSeqConclusion (st : ServerState) (session_id : String) (kind : AssetKind) : Prop :=
  (∀ s, storeFind st.sessions session_id = some s →
      SessionManager.getNextSequenceNumber st.sessions session_id kind =
        (s.metadata.assets kind).length + 1) ∧
  (∀ s md, storeFind st.sessions session_id = some s → storeFind st.disk session_id = some md →
      s.metadata = md →
      SessionManager.getNextSequenceNumber st.sessions session_id kind =
        (md.assets kind).length + 1) ∧
  (storeFind st.sessions session_id = none →
      SessionManager.getNextSequenceNumber st.sessions session_id kind = 1)

/-- What the zero-age sweep achieves: the active store is empty afterwards
and every previously active session has been archived under a directory
name embedding its id and a last-activity epoch, with a metadata file as
content. -/
def SweepConclusion (now : Nat) (st : ServerState) : Prop :=
  (cleanup_old_sessions now 0 st).2.sessions = [] ∧
  ∀ sid ∈ st.sessions.map Prod.fst, ∃ la content,
    (archivePath sid la, content) ∈ (cleanup_old_sessions now 0 st).2.archived

/-- Metadata of a freshly created video-less session, exactly as
`create_session` persists it. -/
def exMeta (session_id : String) (la : Nat) : Metadata :=
  { session_id := session_id, created_at := la, browser_type := "chromium", headless := true,
    viewport_width := 1280, viewport_height := 720, record_video := false,
    status := "active", total_actions := 0, screenshots := [], videos := [], traces := [],
    last_activity := la,
    session_dir := recordingsBase ++ "/sessions/session_" ++ session_id }

/-- In-memory state of a freshly created video-less session. -/
def exSession (session_id : String) (la : Nat) : SessionData :=
  { screenshots := [], videos := [], traces := [], created_at := la, action_count := 0,
    last_activity := la, recording_video := false, engine_video_files := [],
    metadata := exMeta session_id la }

/-- A server with one freshly created session `s1` whose creation instant
is `la`, mirrored on disk. -/
def exState (la : Nat) : ServerState :=
  { sessions := [("s1", exSession "s1" la)], disk := [("s1", exMeta "s1" la)], archived := [] }

/-- A screenshot entry with sequence number `n`, used to populate example
metadata files. -/
def exShot (n : Nat) : AssetEntry :=
  { filename := sanitize (pad3 n ++ "_manual_screenshot.png"),
    filepath := "", action := some "manual", description := "screenshot",
    url := some "", sequence := n, timestamp := 0 }

/-- Persisted metadata of a session that recorded five screenshots before
the process restarted. -/
def exMetaRestarted : Metadata :=
  { exMeta "restarted" 0 with
      screenshots := [exShot 1, exShot 2, exShot 3, exShot 4, exShot 5] }

/-- Server state right after a process restart: the in-memory store is
empty while the session's directory and metadata are still on disk. -/
def exStateRestarted : ServerState :=
  { sessions := [], disk := [("restarted", exMetaRestarted)], archived := [] }

/-- An environment in which every page call succeeds. -/
def envOk : PageEnv := fun _ => none

/-- An environment in which precisely the page call of step `k` raises. -/
def envFailAt (k : Nat) (msg : String) : PageEnv :=
  fun i => if i = k then some msg else none

/-- Concrete navigation action used by witnesses. -/
def actGoto : SequenceAction := { action := "goto", url := some "https://example.com" }

/-- Concrete click action used by witnesses. -/
def actClick : SequenceAction := { action := "click", selector := some "#btn" }

/-- Concrete checkpoint action used by witnesses. -/
def actCheckpoint : SequenceAction := { action := "wait_for_screenshot_analysis" }

/-- A first unrecognized action used by witnesses. -/
def actBogus : SequenceAction := { action := "hover" }

/-- A second unrecognized action used by witnesses. -/
def actBogusMore : SequenceAction := { action := "scroll" }

theorem storeFind_update_self {α : Type} (l : List (String × α)) (k : String) (v : α) :
    storeFind (storeUpdate l k v) k = (storeFind l k).map (fun _ => v) := by
  induction l with
  | nil => rfl
  | cons p rest ih =>
    obtain ⟨k₀, v₀⟩ := p
    by_cases h : k₀ = k
    · subst h
      simp [storeUpdate, storeFind]
    · simp [storeUpdate, storeFind, h, ih]

theorem map_fst_storeUpdate {α : Type} (l : List (String × α)) (k : String) (v : α) :
    (storeUpdate l k v).map Prod.fst = l.map Prod.fst := by
  induction l with
  | nil => rfl
  | cons p rest ih =>
    obtain ⟨k₀, v₀⟩ := p
    by_cases h : k₀ = k
    · subst h
      simp [storeUpdate, ih]
    · simp [storeUpdate, h, ih]

theorem map_fst_storeErase {α : Type} (l : List (String × α)) (k : String) :
    (storeErase l k).map Prod.fst = (l.map Prod.fst).erase k := by
  induction l with
  | nil => rfl
  | cons p rest ih =>
    obtain ⟨k₀, v₀⟩ := p
    by_cases h : k₀ = k
    · subst h
      simp [storeErase, List.erase_cons_head]
    · rw [show storeErase ((k₀, v₀) :: rest) k = (k₀, v₀) :: storeErase rest k from by
        simp [storeErase, h]]
      have hne : ¬ (k₀ == k) = true := by simpa using h
      simp only [List.map_cons, ih]
      rw [List.erase_cons_tail]
      simpa using h

theorem storeFind_eq_none {α : Type} (l : List (String × α)) (k : String) :
    storeFind l k = none ↔ k ∉ l.map Prod.fst := by
  induction l with
  | nil => simp [storeFind]
  | cons p rest ih =>
    obtain ⟨k₀, v₀⟩ := p
    by_cases h : k₀ = k
    · subst h
      simp [storeFind]
    · simp only [storeFind, if_neg h, ih, List.map_cons, List.mem_cons]
      constructor
      · intro hnm hor
        rcases hor with hor | hor
        · exact h hor.symm
        · exact hnm hor
      · exact fun hall hm => hall (Or.inr hm)

theorem storeFind_insert_self {α : Type} (l : List (String × α)) (k : String) (v : α) :
    storeFind (storeInsert l k v) k = some v := by
  induction l with
  | nil => simp [storeInsert, storeFind]
  | cons p rest ih =>
    obtain ⟨k₀, v₀⟩ := p
    by_cases h : k₀ = k
    · subst h
      simp [storeInsert, storeFind]
    · simp [storeInsert, storeFind, h, ih]

theorem add_screenshot_found (now : Nat) (st : ServerState)
    (session_id action description url : String) (s : SessionData)
    (h : storeFind st.sessions session_id = some s) :
    SessionManager.add_screenshot now st session_id action description url =
      (some (s.metadata.session_dir ++ "/screenshots/" ++
         sanitize (pad3 (s.metadata.screenshots.length + 1) ++ "_" ++ action ++ "_" ++
           description ++ ".png")),
       { st with
           sessions := storeUpdate st.sessions session_id (screenshotAdded now action description url s),
           disk := storeInsert st.disk session_id (screenshotAdded now action description url s).metadata }) := by
  simp [SessionManager.add_screenshot, h, SessionManager.getNextSequenceNumber,
    SessionManager.saveSessionMetadata, screenshotAdded, Metadata.assets]

theorem add_video_found (now : Nat) (st : ServerState) (session_id description : String)
    (s : SessionData) (h : storeFind st.sessions session_id = some s) :
    SessionManager.add_video now st session_id description =
      (some (s.metadata.session_dir ++ "/videos/" ++
         sanitize (pad3 (s.metadata.videos.length + 1) ++ "_" ++ description ++ ".webm")),
       { st with
           sessions := storeUpdate st.sessions session_id (videoAdded now description s),
           disk := storeInsert st.disk session_id (videoAdded now description s).metadata }) := by
  simp [SessionManager.add_video, h, SessionManager.getNextSequenceNumber,
    SessionManager.saveSessionMetadata, videoAdded, Metadata.assets]

theorem add_trace_found (now : Nat) (st : ServerState) (session_id description : String)
    (s : SessionData) (h : storeFind st.sessions session_id = some s) :
    SessionManager.add_trace now st session_id description =
      (some (s.metadata.session_dir ++ "/traces/" ++
         sanitize (pad3 (s.metadata.traces.length + 1) ++ "_" ++ description ++ ".zip")),
       { st with
           sessions := storeUpdate st.sessions session_id (traceAdded now description s),
           disk := storeInsert st.disk session_id (traceAdded now description s).metadata }) := by
  simp [SessionManager.add_trace, h, SessionManager.getNextSequenceNumber,
    SessionManager.saveSessionMetadata, traceAdded, Metadata.assets]

theorem add_video_sessions_map_fst (now : Nat) (st : ServerState) (session_id description : String) :
    (SessionManager.add_video now st session_id description).2.sessions.map Prod.fst =
      st.sessions.map Prod.fst := by
  cases h : storeFind st.sessions session_id with
  | none => simp [SessionManager.add_video, h]
  | some s =>
    rw [add_video_found now st session_id description s h]
    simp [map_fst_storeUpdate]

theorem add_video_archived (now : Nat) (st : ServerState) (session_id description : String) :
    (SessionManager.add_video now st session_id description).2.archived = st.archived := by
  cases h : storeFind st.sessions session_id with
  | none => simp [SessionManager.add_video, h]
  | some s =>
    rw [add_video_found now st session_id description s h]

theorem finalizeVideo_sessions_map_fst (now : Nat) (st : ServerState) (session_id : String)
    (session : SessionData) :
    (SessionManager.finalizeVideo now st session_id session).sessions.map Prod.fst =
      st.sessions.map Prod.fst := by
  unfold SessionManager.finalizeVideo
  split
  · split
    · rfl
    · exact add_video_sessions_map_fst now st session_id "session_recording"
  · rfl

theorem finalizeVideo_archived (now : Nat) (st : ServerState) (session_id : String)
    (session : SessionData) :
    (SessionManager.finalizeVideo now st session_id session).archived = st.archived := by
  unfold SessionManager.finalizeVideo
  split
  · split
    · rfl
    · exact add_video_archived now st session_id "session_recording"
  · rfl

theorem finalizeVideo_find (now : Nat) (st : ServerState) (session_id : String) (s : SessionData)
    (h : storeFind st.sessions session_id = some s) :
    ∃ s₁, storeFind (SessionManager.finalizeVideo now st session_id s).sessions session_id = some s₁ := by
  unfold SessionManager.finalizeVideo
  split
  · split
    · exact ⟨s, h⟩
    · rw [add_video_found now st session_id "session_recording" s h]
      refine ⟨videoAdded now "session_recording" s, ?_⟩
      show storeFind (storeUpdate st.sessions session_id _) session_id = _
      rw [storeFind_update_self, h]
      rfl
  · exact ⟨s, h⟩

theorem close_session_sessions_map_fst (now : Nat) (st : ServerState) (session_id : String) :
    (SessionManager.close_session now st session_id).sessions.map Prod.fst =
      (st.sessions.map Prod.fst).erase session_id := by
  unfold SessionManager.close_session
  cases h : storeFind st.sessions session_id with
  | none =>
    simp only [h]
    exact (List.erase_of_not_mem ((storeFind_eq_none _ _).mp h)).symm
  | some s =>
    simp only [h]
    obtain ⟨s₁, h₁⟩ := finalizeVideo_find now st session_id s h
    simp only [h₁, SessionManager.saveSessionMetadata]
    simp [map_fst_storeErase, map_fst_storeUpdate, finalizeVideo_sessions_map_fst]

theorem close_session_archived (now : Nat) (st : ServerState) (session_id : String) :
    (SessionManager.close_session now st session_id).archived = st.archived := by
  unfold SessionManager.close_session
  cases h : storeFind st.sessions session_id with
  | none => simp only [h]
  | some s =>
    simp only [h]
    cases h₁ : storeFind (SessionManager.finalizeVideo now st session_id s).sessions session_id with
    | none =>
      simp only [h₁]
      exact finalizeVideo_archived now st session_id s
    | some s₁ =>
      simp only [h₁, SessionManager.saveSessionMetadata]
      exact finalizeVideo_archived now st session_id s

theorem finishStep_spec (session_id : String) (i : Nat) (a : SequenceAction) (r : StepResult)
    (sess : SessionData) (calls : List EngineCall)
    (hc : ∀ c ∈ calls, EngineCall.step c = i) :
    ∃ r₁ sess₁ ns calls₁, finishStep session_id i a r sess calls = .next r₁ sess₁ ns calls₁ ∧
      r₁.step = r.step ∧ r₁.action = r.action ∧ r₁.status = r.status ∧ r₁.message = r.message ∧
      (∀ c ∈ calls₁, EngineCall.step c = i) := by
  unfold finishStep
  by_cases h : a.screenshot_after = true
  · simp only [h, if_true]
    refine ⟨_, _, _, _, rfl, rfl, rfl, rfl, rfl, ?_⟩
    intro c hm
    rcases List.mem_append.mp hm with hm | hm
    · exact hc c hm
    · rw [List.mem_singleton.mp hm]
      rfl
  · simp only [h, if_false, Bool.false_eq_true]
    exact ⟨r, sess, [], calls, rfl, rfl, rfl, rfl, rfl, hc⟩

theorem runStep_ok (env : PageEnv) (session_id : String) (i : Nat) (a : SequenceAction)
    (sess : SessionData) (hck : a.action ≠ "wait_for_screenshot_analysis") (henv : env i = none) :
    ∃ r sess₁ ns calls, runStep env session_id i a sess = .next r sess₁ ns calls ∧
      r.step = i ∧ r.action = a.action ∧ (∀ c ∈ calls, EngineCall.step c = i) := by
  unfold runStep
  by_cases h1 : a.action = "goto"
  · simp only [if_pos h1, henv]
    obtain ⟨r₁, sess₁, ns, calls₁, heq, hstep, hact, _, _, hcalls⟩ :=
      finishStep_spec session_id i a
        { action := a.action, step := i, status := "success", url := a.url } sess
        [.goto i a.url a.timeout] (by intro c hm; rw [List.mem_singleton.mp hm]; rfl)
    exact ⟨r₁, sess₁, ns, calls₁, heq, hstep, hact, hcalls⟩
  · simp only [if_neg h1]
    by_cases h2 : a.action = "click"
    · simp only [if_pos h2, henv]
      obtain ⟨r₁, sess₁, ns, calls₁, heq, hstep, hact, _, _, hcalls⟩ :=
        finishStep_spec session_id i a
          { action := a.action, step := i, status := "success", selector := a.selector } sess
          [.click i a.selector a.timeout] (by intro c hm; rw [List.mem_singleton.mp hm]; rfl)
      exact ⟨r₁, sess₁, ns, calls₁, heq, hstep, hact, hcalls⟩
    · simp only [if_neg h2]
      by_cases h3 : a.action = "type"
      · simp only [if_pos h3, henv]
        obtain ⟨r₁, sess₁, ns, calls₁, heq, hstep, hact, _, _, hcalls⟩ :=
          finishStep_spec session_id i a
            { action := a.action, step := i, status := "success", selector := a.selector,
              text := a.text } sess
            [.fill i a.selector a.text] (by intro c hm; rw [List.mem_singleton.mp hm]; rfl)
        exact ⟨r₁, sess₁, ns, calls₁, heq, hstep, hact, hcalls⟩
      · simp only [if_neg h3]
        by_cases h4 : a.action = "wait"
        · simp only [if_pos h4, henv]
          obtain ⟨r₁, sess₁, ns, calls₁, heq, hstep, hact, _, _, hcalls⟩ :=
            finishStep_spec session_id i a
              { action := a.action, step := i, status := "success", timeout := a.timeout } sess
              [.wait i a.timeout] (by intro c hm; rw [List.mem_singleton.mp hm]; rfl)
          exact ⟨r₁, sess₁, ns, calls₁, heq, hstep, hact, hcalls⟩
        · simp only [if_neg h4, if_neg hck]
          obtain ⟨r₁, sess₁, ns, calls₁, heq, hstep, hact, _, _, hcalls⟩ :=
            finishStep_spec session_id i a
              { action := a.action, step := i, status := "error",
                message := some ("Unknown action: " ++ a.action) } sess
              [] (by intro c hm; cases hm)
          exact ⟨r₁, sess₁, ns, calls₁, heq, hstep, hact, hcalls⟩

theorem runStep_unknown (env : PageEnv) (session_id : String) (i : Nat) (a : SequenceAction)
    (sess : SessionData) (h : ¬ recognizedAction a) :
    ∃ r sess₁ ns calls, runStep env session_id i a sess = .next r sess₁ ns calls ∧
      r.step = i ∧ r.action = a.action ∧ r.status = "error" ∧
      r.message = some ("Unknown action: " ++ a.action) ∧
      (∀ c ∈ calls, EngineCall.step c = i) := by
  unfold recognizedAction at h
  push_neg at h
  obtain ⟨h1, h2, h3, h4, h5⟩ := h
  unfold runStep
  simp only [if_neg h1, if_neg h2, if_neg h3, if_neg h4, if_neg h5]
  obtain ⟨r₁, sess₁, ns, calls₁, heq, hstep, hact, hstat, hmsg, hcalls⟩ :=
    finishStep_spec session_id i a
      { action := a.action, step := i, status := "error",
        message := some ("Unknown action: " ++ a.action) } sess
      [] (by intro c hm; cases hm)
  exact ⟨r₁, sess₁, ns, calls₁, heq, hstep, hact, hstat, hmsg, hcalls⟩

theorem runStep_checkpoint (env : PageEnv) (session_id : String) (i : Nat) (a : SequenceAction)
    (sess : SessionData) (h : a.action = "wait_for_screenshot_analysis") :
    runStep env session_id i a sess =
      .pausedAt (analysisResult session_id i) (analysisPath session_id i)
        { sess with screenshots := sess.screenshots ++ [analysisPath session_id i] }
        [.screenshot i (analysisPath session_id i)] := by
  have h1 : a.action ≠ "goto" := by rw [h]; decide
  have h2 : a.action ≠ "click" := by rw [h]; decide
  have h3 : a.action ≠ "type" := by rw [h]; decide
  have h4 : a.action ≠ "wait" := by rw [h]; decide
  unfold runStep
  simp only [if_neg h1, if_neg h2, if_neg h3, if_neg h4, if_pos h]
  simp [analysisResult, h]

theorem runStep_failed (env : PageEnv) (session_id : String) (i : Nat) (a : SequenceAction)
    (sess : SessionData) (msg : String)
    (hmain : a.action = "goto" ∨ a.action = "click" ∨ a.action = "type" ∨ a.action = "wait")
    (henv : env i = some msg) :
    ∃ call, runStep env session_id i a sess = .failed msg [call] ∧ EngineCall.step call = i := by
  unfold runStep
  rcases hmain with h | h | h | h
  · simp only [if_pos h, henv]
    exact ⟨_, rfl, rfl⟩
  · have h1 : a.action ≠ "goto" := by rw [h]; decide
    simp only [if_neg h1, if_pos h, henv]
    exact ⟨_, rfl, rfl⟩
  · have h1 : a.action ≠ "goto" := by rw [h]; decide
    have h2 : a.action ≠ "click" := by rw [h]; decide
    simp only [if_neg h1, if_neg h2, if_pos h, henv]
    exact ⟨_, rfl, rfl⟩
  · have h1 : a.action ≠ "goto" := by rw [h]; decide
    have h2 : a.action ≠ "click" := by rw [h]; decide
    have h3 : a.action ≠ "type" := by rw [h]; decide
    simp only [if_neg h1, if_neg h2, if_neg h3, if_pos h, henv]
    exact ⟨_, rfl, rfl⟩

theorem goSeq_checkpoint_run (env : PageEnv) (session_id : String) (pre : List SequenceAction) :
    ∀ (ck : SequenceAction) (rest : List SequenceAction) (i : Nat) (sess : SessionData)
      (acc : List StepResult) (shots : List String) (tr : List EngineCall),
      (∀ x ∈ pre, x.action ≠ "wait_for_screenshot_analysis") →
      (∀ j, j < pre.length → env (i + j) = none) →
      ck.action = "wait_for_screenshot_analysis" →
      ∃ rs sess₁ tr₁,
        goSeq env session_id (pre ++ ck :: rest) i sess acc shots tr =
          (.pausedForAnalysis session_id (i + pre.length)
             (analysisPath session_id (i + pre.length)) rest
             (acc ++ rs ++ [analysisResult session_id (i + pre.length)]), sess₁, tr ++ tr₁) ∧
        rs.length = pre.length ∧
        rs.map StepResult.step = List.range' i pre.length ∧
        rs.map StepResult.action = pre.map SequenceAction.action ∧
        (∀ c ∈ tr₁, EngineCall.step c ≤ i + pre.length) := by
  induction pre with
  | nil =>
    intro ck rest i sess acc shots tr _ _ hck
    refine ⟨[], { sess with screenshots := sess.screenshots ++ [analysisPath session_id i] },
      [.screenshot i (analysisPath session_id i)], ?_, rfl, rfl, rfl, ?_⟩
    · show goSeq env session_id (ck :: rest) i sess acc shots tr = _
      simp only [goSeq, runStep_checkpoint env session_id i ck sess hck]
      simp
    · intro c hm
      rw [List.mem_singleton.mp hm]
      simp [EngineCall.step]
  | cons x pre ih =>
    intro ck rest i sess acc shots tr hpre henv hck
    obtain ⟨r, sess₁, ns, calls, heq, hstep, hact, hcalls⟩ :=
      runStep_ok env session_id i x sess (hpre x (List.mem_cons_self x pre))
        (by have := henv 0 (by simp); simpa using this)
    obtain ⟨rs, sess₂, tr₂, heq₂, hlen, hsteps, hacts, htr⟩ :=
      ih ck rest (i + 1) sess₁ (acc ++ [r]) (shots ++ ns) (tr ++ calls)
        (fun y hy => hpre y (List.mem_cons_of_mem x hy))
        (by
          intro j hj
          have h0 := henv (j + 1) (by simpa using Nat.succ_lt_succ hj)
          rw [← h0]
          congr 1
          omega)
        hck
    refine ⟨r :: rs, sess₂, calls ++ tr₂, ?_, ?_, ?_, ?_, ?_⟩
    · show goSeq env session_id (x :: (pre ++ ck :: rest)) i sess acc shots tr = _
      simp only [goSeq, heq]
      have hidx : (i + 1) + pre.length = i + (x :: pre).length := by simp; omega
      rw [hidx] at heq₂
      rw [heq₂]
      try simp
    · simp [hlen]
    · have hr : List.range' i ((x :: pre).length) = i :: List.range' (i + 1) pre.length := by
        simp [List.range'_succ]
      rw [hr]
      simp [hstep, hsteps]
    · simp [hact, hacts]
    · intro c hm
      rcases List.mem_append.mp hm with hm | hm
      · have hc₀ := hcalls c hm
        simp only [hc₀, List.length_cons]
        omega
      · have hc₀ := htr c hm
        simp only [List.length_cons]
        omega

theorem goSeq_error_run (env : PageEnv) (session_id : String) (pre : List SequenceAction) :
    ∀ (bad : SequenceAction) (rest : List SequenceAction) (i : Nat) (sess : SessionData)
      (acc : List StepResult) (shots : List String) (tr : List EngineCall) (msg : String),
      (∀ x ∈ pre, x.action ≠ "wait_for_screenshot_analysis") →
      (∀ j, j < pre.length → env (i + j) = none) →
      (bad.action = "goto" ∨ bad.action = "click" ∨ bad.action = "type" ∨ bad.action = "wait") →
      env (i + pre.length) = some msg →
      ∃ rs sess₁ tr₁,
        goSeq env session_id (pre ++ bad :: rest) i sess acc shots tr =
          (.error session_id msg (errorShotPath session_id) (acc ++ rs), sess₁, tr ++ tr₁) ∧
        rs.length = pre.length ∧
        rs.map StepResult.step = List.range' i pre.length ∧
        EngineCall.screenshot (i + pre.length) (errorShotPath session_id) ∈ tr₁ ∧
        (∀ c ∈ tr₁, EngineCall.step c ≤ i + pre.length) := by
  induction pre with
  | nil =>
    intro bad rest i sess acc shots tr msg _ _ hmain henvf
    obtain ⟨call, heq, hcs⟩ := runStep_failed env session_id i bad sess msg hmain
      (by simpa using henvf)
    refine ⟨[], sess, [call, .screenshot i (errorShotPath session_id)], ?_, rfl, rfl, ?_, ?_⟩
    · show goSeq env session_id (bad :: rest) i sess acc shots tr = _
      simp only [goSeq, heq]
      simp
    · simp
    · intro c hm
      rcases List.mem_cons.mp hm with hm | hm
      · subst hm
        simp [hcs]
      · rw [List.mem_singleton.mp hm]
        simp [EngineCall.step]
  | cons x pre ih =>
    intro bad rest i sess acc shots tr msg hpre henv hmain henvf
    obtain ⟨r, sess₁, ns, calls, heq, hstep, hact, hcalls⟩ :=
      runStep_ok env session_id i x sess (hpre x (List.mem_cons_self x pre))
        (by have := henv 0 (by simp); simpa using this)
    obtain ⟨rs, sess₂, tr₂, heq₂, hlen, hsteps, hmem, htr⟩ :=
      ih bad rest (i + 1) sess₁ (acc ++ [r]) (shots ++ ns) (tr ++ calls) msg
        (fun y hy => hpre y (List.mem_cons_of_mem x hy))
        (by
          intro j hj
          have h0 := henv (j + 1) (by simpa using Nat.succ_lt_succ hj)
          rw [← h0]
          congr 1
          omega)
        hmain
        (by
          rw [← henvf]
          congr 1
          simp
          omega)
    refine ⟨r :: rs, sess₂, calls ++ tr₂, ?_, ?_, ?_, ?_, ?_⟩
    · show goSeq env session_id (x :: (pre ++ bad :: rest)) i sess acc shots tr = _
      simp only [goSeq, heq]
      rw [heq₂]
      try simp
    · simp [hlen]
    · have hr : List.range' i ((x :: pre).length) = i :: List.range' (i + 1) pre.length := by
        simp [List.range'_succ]
      rw [hr]
      simp [hstep, hsteps]
    · refine List.mem_append.mpr (Or.inr ?_)
      have hidx : (i + 1) + pre.length = i + (x :: pre).length := by simp; omega
      rw [← hidx]
      exact hmem
    · intro c hm
      rcases List.mem_append.mp hm with hm | hm
      · have hc₀ := hcalls c hm
        simp only [hc₀, List.length_cons]
        omega
      · have hc₀ := htr c hm
        simp only [List.length_cons]
        omega

theorem goSeq_unknown_run (env : PageEnv) (session_id : String) (actions : List SequenceAction) :
    ∀ (i : Nat) (sess : SessionData) (acc : List StepResult) (shots : List String)
      (tr : List EngineCall),
      (∀ a ∈ actions, ¬ recognizedAction a) →
      ∃ rs sess₁ shots₁ tr₁,
        goSeq env session_id actions i sess acc shots tr =
          (.completed session_id (acc ++ rs).length (acc ++ rs) shots₁, sess₁, tr ++ tr₁) ∧
        rs.length = actions.length ∧
        rs.map StepResult.step = List.range' i actions.length ∧
        (∀ r ∈ rs, r.status = "error") ∧
        rs.map StepResult.message =
          actions.map (fun a => some ("Unknown action: " ++ a.action)) := by
  induction actions with
  | nil =>
    intro i sess acc shots tr _
    refine ⟨[], sess, shots, [], ?_, rfl, rfl, ?_, rfl⟩
    · simp [goSeq]
    · intro r hr
      cases hr
  | cons x actions ih =>
    intro i sess acc shots tr hunk
    obtain ⟨r, sess₁, ns, calls, heq, hstep, hact, hstat, hmsg, hcalls⟩ :=
      runStep_unknown env session_id i x sess (hunk x (List.mem_cons_self x actions))
    obtain ⟨rs, sess₂, shots₂, tr₂, heq₂, hlen, hsteps, hstats, hmsgs⟩ :=
      ih (i + 1) sess₁ (acc ++ [r]) (shots ++ ns) (tr ++ calls)
        (fun y hy => hunk y (List.mem_cons_of_mem x hy))
    refine ⟨r :: rs, sess₂, shots₂, calls ++ tr₂, ?_, ?_, ?_, ?_, ?_⟩
    · show goSeq env session_id (x :: actions) i sess acc shots tr = _
      simp only [goSeq, heq]
      rw [heq₂]
      try simp
    · simp [hlen]
    · have hr : List.range' i ((x :: actions).length) = i :: List.range' (i + 1) actions.length := by
        simp [List.range'_succ]
      rw [hr]
      simp [hstep, hsteps]
    · intro r₀ hr₀
      rcases List.mem_cons.mp hr₀ with hr₀ | hr₀
      · subst hr₀
        exact hstat
      · exact hstats r₀ hr₀
    · simp [hmsg, hmsgs]

theorem sweepStepState_archived (now : Nat) (dir_id : String) (md : Metadata) (st : ServerState) :
    ∃ content, (sweepStepState now dir_id md st).archived =
      st.archived ++ [(archivePath md.session_id md.last_activity, content)] := by
  unfold sweepStepState
  by_cases hs : (storeFind st.sessions md.session_id).isSome = true
  · simp only [hs, if_true]
    exact ⟨_, by rw [close_session_archived]⟩
  · simp only [hs, if_false, Bool.false_eq_true]
    exact ⟨_, rfl⟩

theorem sweepStepState_sessions_map_fst (now : Nat) (dir_id : String) (md : Metadata)
    (st : ServerState) :
    (sweepStepState now dir_id md st).sessions.map Prod.fst =
      (st.sessions.map Prod.fst).erase md.session_id := by
  unfold sweepStepState
  by_cases hs : (storeFind st.sessions md.session_id).isSome = true
  · simp only [hs, if_true]
    exact close_session_sessions_map_fst now st md.session_id
  · simp only [hs, if_false, Bool.false_eq_true]
    rw [List.erase_of_not_mem]
    exact (storeFind_eq_none _ _).mp (Option.not_isSome_iff_eq_none.mp (by simpa using hs))

theorem cleanupGo_archived_mono (now m : Nat) (entries : List (String × Metadata)) :
    ∀ (st : ServerState) (acc : List CleanedEntry) (x : String × Metadata),
      x ∈ st.archived → x ∈ (cleanupGo now m entries st acc).2.archived := by
  induction entries with
  | nil =>
    intro st acc x hx
    simpa [cleanupGo] using hx
  | cons e rest ih =>
    intro st acc x hx
    obtain ⟨dir_id, md⟩ := e
    by_cases hc : m < now - md.last_activity
    · rw [show cleanupGo now m ((dir_id, md) :: rest) st acc =
          cleanupGo now m rest (sweepStepState now dir_id md st)
            (acc ++ [{ session_id := md.session_id, last_activity := md.last_activity,
                       archived_to := archivePath md.session_id md.last_activity }]) from by
        simp [cleanupGo, hc]]
      apply ih
      obtain ⟨content, harch⟩ := sweepStepState_archived now dir_id md st
      rw [harch]
      exact List.mem_append_left _ hx
    · rw [show cleanupGo now m ((dir_id, md) :: rest) st acc = cleanupGo now m rest st acc from by
        simp [cleanupGo, hc]]
      exact ih st acc x hx

theorem cleanupGo_empties (now : Nat) (entries : List (String × Metadata)) :
    ∀ (st : ServerState) (acc : List CleanedEntry),
      (st.sessions.map Prod.fst).Nodup →
      (∀ sid ∈ st.sessions.map Prod.fst,
          ∃ md, (sid, md) ∈ entries ∧ md.session_id = sid ∧ md.last_activity < now) →
      (cleanupGo now 0 entries st acc).2.sessions = [] ∧
      (∀ sid ∈ st.sessions.map Prod.fst, ∃ la content,
          (archivePath sid la, content) ∈ (cleanupGo now 0 entries st acc).2.archived) := by
  induction entries with
  | nil =>
    intro st acc _ hcover
    have hkeys : st.sessions.map Prod.fst = [] := by
      cases hk : st.sessions.map Prod.fst with
      | nil => rfl
      | cons sid tl =>
        exfalso
        obtain ⟨md, hmd, _, _⟩ := hcover sid (by rw [hk]; exact List.mem_cons_self sid tl)
        cases hmd
    constructor
    · have : st.sessions = [] := List.map_eq_nil_iff.mp hkeys
      simpa [cleanupGo] using this
    · intro sid hsid
      rw [hkeys] at hsid
      cases hsid
  | cons e rest ih =>
    intro st acc hnodup hcover
    obtain ⟨dir_id, md⟩ := e
    by_cases hc : (0 : Nat) < now - md.last_activity
    · have hrec : cleanupGo now 0 ((dir_id, md) :: rest) st acc =
          cleanupGo now 0 rest (sweepStepState now dir_id md st)
            (acc ++ [{ session_id := md.session_id, last_activity := md.last_activity,
                       archived_to := archivePath md.session_id md.last_activity }]) := by
        simp [cleanupGo, hc]
      have hkeys₂ := sweepStepState_sessions_map_fst now dir_id md st
      have hnodup₂ : ((sweepStepState now dir_id md st).sessions.map Prod.fst).Nodup := by
        rw [hkeys₂]
        exact hnodup.erase _
      have hcover₂ : ∀ sid ∈ (sweepStepState now dir_id md st).sessions.map Prod.fst,
          ∃ md₀, (sid, md₀) ∈ rest ∧ md₀.session_id = sid ∧ md₀.last_activity < now := by
        intro sid hsid
        rw [hkeys₂] at hsid
        have hsid₀ : sid ∈ st.sessions.map Prod.fst := List.mem_of_mem_erase hsid
        have hne : sid ≠ md.session_id := by
          intro h
          rw [h] at hsid
          exact hnodup.not_mem_erase hsid
        obtain ⟨md₀, hmem, hid, hla⟩ := hcover sid hsid₀
        rcases List.mem_cons.mp hmem with hh | hh
        · exfalso
          have hmd : md₀ = md := (Prod.mk.injEq _ _ _ _).mp hh |>.2
          rw [hmd] at hid
          exact hne hid.symm
        · exact ⟨md₀, hh, hid, hla⟩
      obtain ⟨hemp, harch⟩ := ih (sweepStepState now dir_id md st)
        (acc ++ [{ session_id := md.session_id, last_activity := md.last_activity,
                   archived_to := archivePath md.session_id md.last_activity }]) hnodup₂ hcover₂
      refine ⟨by rw [hrec]; exact hemp, ?_⟩
      intro sid hsid
      by_cases hx : sid = md.session_id
      · subst hx
        obtain ⟨content, harc⟩ := sweepStepState_archived now dir_id md st
        refine ⟨md.last_activity, content, ?_⟩
        rw [hrec]
        apply cleanupGo_archived_mono
        rw [harc]
        exact List.mem_append_right _ (List.mem_singleton.mpr rfl)
      · have hsid₂ : sid ∈ (sweepStepState now dir_id md st).sessions.map Prod.fst := by
          rw [hkeys₂]
          exact (List.mem_erase_of_ne hx).mpr hsid
        obtain ⟨la, content, hmem⟩ := harch sid hsid₂
        exact ⟨la, content, by rw [hrec]; exact hmem⟩
    · have hrec : cleanupGo now 0 ((dir_id, md) :: rest) st acc =
          cleanupGo now 0 rest st acc := by
        simp [cleanupGo, hc]
      have hcover₀ : ∀ sid ∈ st.sessions.map Prod.fst,
          ∃ md₀, (sid, md₀) ∈ rest ∧ md₀.session_id = sid ∧ md₀.last_activity < now := by
        intro sid hsid
        obtain ⟨md₀, hmem, hid, hla⟩ := hcover sid hsid
        rcases List.mem_cons.mp hmem with hh | hh
        · exfalso
          have hmd : md₀ = md := (Prod.mk.injEq _ _ _ _).mp hh |>.2
          rw [hmd] at hla
          omega
        · exact ⟨md₀, hh, hid, hla⟩
      obtain ⟨hemp, harch⟩ := ih st acc hnodup hcover₀
      refine ⟨by rw [hrec]; exact hemp, ?_⟩
      intro sid hsid
      obtain ⟨la, content, hmem⟩ := harch sid hsid
      exact ⟨la, content, by rw [hrec]; exact hmem⟩

/-- C1: for every session in the active store and every action list whose
first checkpoint (tag `wait_for_screenshot_analysis`) sits at index
`pre.length` and whose prior page calls succeed, `execute_sequence`
returns a paused result with exactly `pre.length + 1` step results (one
per processed prior step plus the `waiting_for_analysis` record), the
checkpoint screenshot path, and a continuation equal to the exact,
unmodified suffix after the checkpoint; no engine call belongs to any
step past the checkpoint. -/
theorem checkpoint_pause_contract (env : PageEnv) (st : ServerState) (session_id : String)
    (s : SessionData) (pre : List SequenceAction) (ck : SequenceAction)
    (rest : List SequenceAction)
    (hfound : storeFind st.sessions session_id = some s)
    (hpre : ∀ x ∈ pre, x.action ≠ "wait_for_screenshot_analysis")
    (henv : ∀ j, j < pre.length → env j = none)
    (hck : ck.action = "wait_for_screenshot_analysis") :
    PausedConclusion env st session_id pre ck rest := by
  obtain ⟨rs, sess₁, tr₁, heq, hlen, hsteps, hacts, htr⟩ :=
    goSeq_checkpoint_run env session_id pre ck rest 0 s [] [] []
      hpre (by intro j hj; simpa using henv j hj) hck
  simp only [Nat.zero_add, List.nil_append] at heq
  unfold PausedConclusion
  refine ⟨rs, sess₁, tr₁, ?_, by simp [hlen], hsteps, hacts, ?_, ?_⟩
  · simp only [execute_sequence, hfound, heq]
  · rw [show pre.length + 1 = (pre ++ [ck]).length from by simp]
    rw [show pre ++ ck :: rest = (pre ++ [ck]) ++ rest from by simp]
    exact (List.drop_left _ _).symm
  · intro c hc
    simpa using htr c hc

/-- Witness for C1: a session store holding `s1`, the action list
`[goto, checkpoint, click]` and an environment in which every page call
succeeds satisfy the hypotheses, and the paused contract holds. -/
theorem checkpoint_pause_contract_witness :
    storeFind (exState 0).sessions "s1" = some (exSession "s1" 0) ∧
    (∀ x ∈ [actGoto], x.action ≠ "wait_for_screenshot_analysis") ∧
    actCheckpoint.action = "wait_for_screenshot_analysis" ∧
    PausedConclusion envOk (exState 0) "s1" [actGoto] actCheckpoint [actClick] :=
  ⟨rfl, by decide, rfl,
    checkpoint_pause_contract envOk (exState 0) "s1" (exSession "s1" 0)
      [actGoto] actCheckpoint [actClick] rfl (by decide) (fun j _ => rfl) rfl⟩

/-- C5: for every session in the active store and every action list, if
the page call of a recognized action raises after the preceding steps went
through, `execute_sequence` captures an error screenshot, stops processing
the remaining actions, and returns an error response carrying the
completed-so-far step results, the error description and the error
screenshot path, while the session stays in the active store. -/
theorem action_failure_stops_run (env : PageEnv) (st : ServerState) (session_id : String)
    (s : SessionData) (pre : List SequenceAction) (bad : SequenceAction)
    (rest : List SequenceAction) (msg : String)
    (hfound : storeFind st.sessions session_id = some s)
    (hpre : ∀ x ∈ pre, x.action ≠ "wait_for_screenshot_analysis")
    (henv : ∀ j, j < pre.length → env j = none)
    (hmain : bad.action = "goto" ∨ bad.action = "click" ∨ bad.action = "type" ∨
      bad.action = "wait")
    (henvf : env pre.length = some msg) :
    ErrorConclusion env st session_id pre bad rest msg := by
  obtain ⟨rs, sess₁, tr₁, heq, hlen, hsteps, hmem, htr⟩ :=
    goSeq_error_run env session_id pre bad rest 0 s [] [] [] msg hpre
      (by intro j hj; simpa using henv j hj) hmain (by simpa using henvf)
  simp only [Nat.zero_add, List.nil_append] at heq hmem htr
  unfold ErrorConclusion
  refine ⟨rs, sess₁, tr₁, ?_, hlen, hsteps, hmem, htr, ?_⟩
  · simp only [execute_sequence, hfound, heq]
  · simp only [execute_sequence, hfound, heq]
    rw [storeFind_update_self, hfound]
    rfl

/-- Witness for C5: with `s1` in the store, the list `[goto, click]` and
an environment whose page call raises exactly at step 1, the error
contract holds. -/
theorem action_failure_stops_run_witness :
    storeFind (exState 0).sessions "s1" = some (exSession "s1" 0) ∧
    envFailAt 1 "TimeoutError: waiting for selector" 1 =
      some "TimeoutError: waiting for selector" ∧
    ErrorConclusion (envFailAt 1 "TimeoutError: waiting for selector") (exState 0) "s1"
      [actGoto] actClick [] "TimeoutError: waiting for selector" :=
  ⟨rfl, rfl,
    action_failure_stops_run (envFailAt 1 "TimeoutError: waiting for selector") (exState 0)
      "s1" (exSession "s1" 0) [actGoto] actClick [] "TimeoutError: waiting for selector"
      rfl (by decide)
      (by
        intro j hj
        simp only [List.length_singleton] at hj
        have hj0 : j = 0 := by omega
        rw [hj0]
        rfl)
      (Or.inr (Or.inl rfl)) rfl⟩

/-- C9: an action whose tag is not one of the recognized variants yields a
step result with status `error` and an explanatory message but does not
stop the run; a list consisting only of unrecognized actions is processed
end to end and still returns an overall `completed` response. -/
theorem unknown_actions_do_not_abort (env : PageEnv) (st : ServerState) (session_id : String)
    (s : SessionData) (actions : List SequenceAction)
    (hfound : storeFind st.sessions session_id = some s)
    (hunk : ∀ a ∈ actions, ¬ recognizedAction a) :
    UnknownConclusion env st session_id actions := by
  obtain ⟨rs, sess₁, shots₁, tr₁, heq, hlen, hsteps, hstats, hmsgs⟩ :=
    goSeq_unknown_run env session_id actions 0 s [] [] [] hunk
  simp only [List.nil_append] at heq
  rw [hlen] at heq
  unfold UnknownConclusion
  exact ⟨rs, shots₁, sess₁, tr₁, by simp only [execute_sequence, hfound, heq], hlen, hsteps,
    hstats, hmsgs⟩

/-- Witness for C9: two unrecognized actions are both processed and the
run completes. -/
theorem unknown_actions_do_not_abort_witness :
    storeFind (exState 0).sessions "s1" = some (exSession "s1" 0) ∧
    (∀ a ∈ [actBogus, actBogusMore], ¬ recognizedAction a) ∧
    UnknownConclusion envOk (exState 0) "s1" [actBogus, actBogusMore] :=
  ⟨rfl, by decide,
    unknown_actions_do_not_abort envOk (exState 0) "s1" (exSession "s1" 0)
      [actBogus, actBogusMore] rfl (by decide)⟩

/-- C7: closing an id that is not in the active store returns the 404
response and leaves the state — store included — completely unchanged,
with no fault raised. -/
theorem close_unknown_session_not_found (now : Nat) (st : ServerState) (session_id : String)
    (h : storeFind st.sessions session_id = none) :
    close_session_endpoint now st session_id = (CloseResponse.notFound, st) := by
  simp only [close_session_endpoint, h]

/-- Witness for C7: closing the unknown id `ghost` on a store holding only
`s1` yields the 404 response and the unchanged state. -/
theorem close_unknown_session_not_found_witness :
    storeFind (exState 0).sessions "ghost" = none ∧
    close_session_endpoint 7 (exState 0) "ghost" = (CloseResponse.notFound, exState 0) :=
  ⟨rfl, close_unknown_session_not_found 7 (exState 0) "ghost" rfl⟩

/-- C10: for a session id absent from the active store, each of
`add_screenshot`, `add_video` and `add_trace` returns `None` and leaves
the whole state — in-memory store and persisted metadata — unchanged. -/
theorem add_asset_absent_session_noop (now : Nat) (st : ServerState) (session_id : String)
    (a d u dv dt : String) (h : storeFind st.sessions session_id = none) :
    SessionManager.add_screenshot now st session_id a d u = (none, st) ∧
    SessionManager.add_video now st session_id dv = (none, st) ∧
    SessionManager.add_trace now st session_id dt = (none, st) := by
  refine ⟨?_, ?_, ?_⟩ <;>
    simp [SessionManager.add_screenshot, SessionManager.add_video, SessionManager.add_trace, h]

/-- Witness for C10: the unknown id `ghost` makes all three recorders
return `None` without touching the state. -/
theorem add_asset_absent_session_noop_witness :
    storeFind (exState 0).sessions "ghost" = none ∧
    SessionManager.add_screenshot 5 (exState 0) "ghost" "manual" "shot" "" =
      (none, exState 0) ∧
    SessionManager.add_video 5 (exState 0) "ghost" "rec" = (none, exState 0) ∧
    SessionManager.add_trace 5 (exState 0) "ghost" "trc" = (none, exState 0) :=
  ⟨rfl, add_asset_absent_session_noop 5 (exState 0) "ghost" "manual" "shot" "" "rec" "trc" rfl⟩

theorem range'_one_concat (n : Nat) :
    List.range' 1 n ++ [n + 1] = List.range' 1 (n + 1) := by
  have h := List.range'_append_1 1 n 1
  simpa [List.range', Nat.add_comm] using h

theorem add_screenshot_step (now : Nat) (st : ServerState) (session_id a d u : String)
    (s : SessionData) (hfound : storeFind st.sessions session_id = some s) :
    storeFind (SessionManager.add_screenshot now st session_id a d u).2.sessions session_id =
      some (screenshotAdded now a d u s) := by
  rw [add_screenshot_found now st session_id a d u s hfound]
  show storeFind (storeUpdate st.sessions session_id _) session_id = _
  rw [storeFind_update_self, hfound]
  rfl

theorem add_screenshot_disk (now : Nat) (st : ServerState) (session_id a d u : String)
    (s : SessionData) (hfound : storeFind st.sessions session_id = some s) :
    storeFind (SessionManager.add_screenshot now st session_id a d u).2.disk session_id =
      some (screenshotAdded now a d u s).metadata := by
  rw [add_screenshot_found now st session_id a d u s hfound]
  exact storeFind_insert_self _ _ _

theorem add_video_step (now : Nat) (st : ServerState) (session_id d : String)
    (s : SessionData) (hfound : storeFind st.sessions session_id = some s) :
    storeFind (SessionManager.add_video now st session_id d).2.sessions session_id =
      some (videoAdded now d s) := by
  rw [add_video_found now st session_id d s hfound]
  show storeFind (storeUpdate st.sessions session_id _) session_id = _
  rw [storeFind_update_self, hfound]
  rfl

theorem add_video_disk (now : Nat) (st : ServerState) (session_id d : String)
    (s : SessionData) (hfound : storeFind st.sessions session_id = some s) :
    storeFind (SessionManager.add_video now st session_id d).2.disk session_id =
      some (videoAdded now d s).metadata := by
  rw [add_video_found now st session_id d s hfound]
  exact storeFind_insert_self _ _ _

theorem add_trace_step (now : Nat) (st : ServerState) (session_id d : String)
    (s : SessionData) (hfound : storeFind st.sessions session_id = some s) :
    storeFind (SessionManager.add_trace now st session_id d).2.sessions session_id =
      some (traceAdded now d s) := by
  rw [add_trace_found now st session_id d s hfound]
  show storeFind (storeUpdate st.sessions session_id _) session_id = _
  rw [storeFind_update_self, hfound]
  rfl

theorem add_trace_disk (now : Nat) (st : ServerState) (session_id d : String)
    (s : SessionData) (hfound : storeFind st.sessions session_id = some s) :
    storeFind (SessionManager.add_trace now st session_id d).2.disk session_id =
      some (traceAdded now d s).metadata := by
  rw [add_trace_found now st session_id d s hfound]
  exact storeFind_insert_self _ _ _

/-- C4: for every session in the active store and every asset kind,
sequence numbers of that kind are assigned gaplessly from 1 (one addition
extends a gapless array by the next integer), additions of the other
kinds do not disturb them, and three consecutive screenshot additions
from an empty array produce the 001/002/003 filename markers and a
three-element metadata array in order. -/
theorem asset_sequence_numbers_gapless (now₁ now₂ now₃ : Nat) (st : ServerState)
    (session_id : String) (s : SessionData)
    (hfound : storeFind st.sessions session_id = some s) :
    GaplessConclusion now₁ now₂ now₃ st session_id s := by
  unfold GaplessConclusion
  refine ⟨?_, ?_, ?_, ?_, ?_, ?_, ?_⟩
  · intro hg a d u
    refine ⟨screenshotAdded now₁ a d u s,
      add_screenshot_step now₁ st session_id a d u s hfound, ?_, ?_⟩
    · simp only [screenshotAdded, List.map_append, hg]
      simpa using range'_one_concat s.metadata.screenshots.length
    · simp [screenshotAdded]
  · intro hg d
    refine ⟨videoAdded now₁ d s, add_video_step now₁ st session_id d s hfound, ?_, ?_⟩
    · simp only [videoAdded, List.map_append, hg]
      simpa using range'_one_concat s.metadata.videos.length
    · simp [videoAdded]
  · intro hg d
    refine ⟨traceAdded now₁ d s, add_trace_step now₁ st session_id d s hfound, ?_, ?_⟩
    · simp only [traceAdded, List.map_append, hg]
      simpa using range'_one_concat s.metadata.traces.length
    · simp [traceAdded]
  · intro d
    exact ⟨videoAdded now₁ d s, add_video_step now₁ st session_id d s hfound, rfl, rfl⟩
  · intro d
    exact ⟨traceAdded now₁ d s, add_trace_step now₁ st session_id d s hfound, rfl, rfl⟩
  · intro a d u
    exact ⟨screenshotAdded now₁ a d u s,
      add_screenshot_step now₁ st session_id a d u s hfound, rfl, rfl⟩
  · intro hempty
    have hfind₁ := add_screenshot_step now₁ st session_id "nav" "home page"
      "https://example.com" s hfound
    have hfind₂ := add_screenshot_step now₂ _ session_id "nav" "home page"
      "https://example.com" _ hfind₁
    have hfind₃ := add_screenshot_step now₃ _ session_id "nav" "home page"
      "https://example.com" _ hfind₂
    refine ⟨_, hfind₃, ?_, ?_, ?_⟩
    · simp [screenshotAdded, hempty]
      decide
    · simp [screenshotAdded, hempty]
    · simp [screenshotAdded, hempty]

/-- Witness for C4: the gapless-numbering conclusion holds at the concrete
fresh session `s1`. -/
theorem asset_sequence_numbers_gapless_witness :
    storeFind (exState 0).sessions "s1" = some (exSession "s1" 0) ∧
    GaplessConclusion 3 4 5 (exState 0) "s1" (exSession "s1" 0) :=
  ⟨rfl, asset_sequence_numbers_gapless 3 4 5 (exState 0) "s1" (exSession "s1" 0) rfl⟩

/-- Counterexample to C6 as stated: a successful `add_video` returns a
path yet leaves the session's `total_actions` counter unchanged (0 before
and 0 after), so not every asset addition bumps the action counter. -/
theorem add_video_skips_total_actions :
    (SessionManager.add_video 5 (exState 0) "s1" "demo").1.isSome = true ∧
    (storeFind (exState 0).sessions "s1").map (fun s => s.metadata.total_actions) = some 0 ∧
    (storeFind (SessionManager.add_video 5 (exState 0) "s1" "demo").2.sessions "s1").map
      (fun s => s.metadata.total_actions) = some 0 := by
  refine ⟨rfl, rfl, ?_⟩
  rw [add_video_step 5 (exState 0) "s1" "demo" (exSession "s1" 0) rfl]
  rfl

/-- C6 (amended): each recorder returns a path, appends to its metadata
array, refreshes the metadata last-activity stamp and synchronously
rewrites the metadata file (the persisted file equals the in-memory
metadata on return); only `add_screenshot` bumps `total_actions`, while
`add_video` and `add_trace` leave the counter unchanged. -/
theorem add_asset_updates_metadata (now : Nat) (st : ServerState) (session_id : String)
    (s : SessionData) (hfound : storeFind st.sessions session_id = some s) :
    AddAssetConclusion now st session_id s := by
  unfold AddAssetConclusion
  refine ⟨?_, ?_, ?_⟩
  · intro a d u
    refine ⟨_, screenshotAdded now a d u s,
      by rw [add_screenshot_found now st session_id a d u s hfound],
      add_screenshot_step now st session_id a d u s hfound, ?_, ?_, ?_,
      add_screenshot_disk now st session_id a d u s hfound⟩
    · simp [screenshotAdded]
    · simp [screenshotAdded]
    · simp [screenshotAdded]
  · intro d
    refine ⟨_, videoAdded now d s,
      by rw [add_video_found now st session_id d s hfound],
      add_video_step now st session_id d s hfound, ?_, ?_, ?_,
      add_video_disk now st session_id d s hfound⟩
    · simp [videoAdded]
    · simp [videoAdded]
    · simp [videoAdded]
  · intro d
    refine ⟨_, traceAdded now d s,
      by rw [add_trace_found now st session_id d s hfound],
      add_trace_step now st session_id d s hfound, ?_, ?_, ?_,
      add_trace_disk now st session_id d s hfound⟩
    · simp [traceAdded]
    · simp [traceAdded]
    · simp [traceAdded]

/-- Witness for C6 (amended): the recorder contract holds at the concrete
fresh session `s1`. -/
theorem add_asset_updates_metadata_witness :
    storeFind (exState 0).sessions "s1" = some (exSession "s1" 0) ∧
    AddAssetConclusion 9 (exState 0) "s1" (exSession "s1" 0) :=
  ⟨rfl, add_asset_updates_metadata 9 (exState 0) "s1" (exSession "s1" 0) rfl⟩

/-- Counterexample to C3 as stated: after a restart the session is absent
from the in-memory store while its persisted metadata still lists five
screenshots, yet `_get_next_sequence_number` answers 1 — it restarts
instead of continuing from the persisted count. -/
theorem next_sequence_number_resets_counterexample :
    storeFind exStateRestarted.sessions "restarted" = none ∧
    (storeFind exStateRestarted.disk "restarted").map (fun md => md.screenshots.length) =
      some 5 ∧
    SessionManager.getNextSequenceNumber exStateRestarted.sessions "restarted"
      AssetKind.screenshots = 1 ∧
    SessionManager.getNextSequenceNumber exStateRestarted.sessions "restarted"
      AssetKind.screenshots ≠ 5 + 1 :=
  ⟨rfl, rfl, rfl, by decide⟩

/-- C3 (amended): the next sequence number is the in-memory session's
metadata array length plus one — which equals the persisted count plus
one exactly when the in-memory metadata mirrors the persisted file — and
for a session absent from the store (as after a process restart) it is 1
regardless of what is persisted. -/
theorem next_sequence_number_semantics (st : ServerState) (session_id : String)
    (kind : AssetKind) :
    NextSeqConclusion st session_id kind := by
  unfold NextSeqConclusion
  refine ⟨?_, ?_, ?_⟩
  · intro s hs
    simp [SessionManager.getNextSequenceNumber, hs]
  · intro s md hs _ hmirror
    simp [SessionManager.getNextSequenceNumber, hs, hmirror]
  · intro h
    simp [SessionManager.getNextSequenceNumber, h]

/-- Witness for C3 (amended): the behaviour holds both at a state holding
`s1` and at the post-restart state. -/
theorem next_sequence_number_semantics_witness :
    NextSeqConclusion (exState 0) "s1" AssetKind.screenshots ∧
    NextSeqConclusion exStateRestarted "restarted" AssetKind.screenshots :=
  ⟨next_sequence_number_semantics (exState 0) "s1" AssetKind.screenshots,
   next_sequence_number_semantics exStateRestarted "restarted" AssetKind.screenshots⟩

/-- C2 at the failing input: running a one-checkpoint sequence on the
fresh session `s1` appends the captured screenshot path to the in-memory
session object, but the persisted metadata file still lists no screenshots
when the call returns — the executor never routes its captures through
`add_screenshot` or `_save_session_metadata`. -/
theorem sequence_screenshot_not_persisted :
    (storeFind (execute_sequence envOk (exState 0) "s1" [actCheckpoint]).2.1.sessions "s1").map
      SessionData.screenshots = some [analysisPath "s1" 0] ∧
    (storeFind (execute_sequence envOk (exState 0) "s1" [actCheckpoint]).2.1.disk "s1").map
      Metadata.screenshots = some [] ∧
    (execute_sequence envOk (exState 0) "s1" [actCheckpoint]).2.1.disk = (exState 0).disk := by
  refine ⟨?_, ?_, ?_⟩ <;> rfl

/-- Counterexample to C8 as stated: when the sweep instant equals the
session's persisted last-activity the strict age test `now - last > 0`
fails, so the zero-age sweep archives nothing and the session stays in
the active store. -/
theorem sweep_zero_boundary_counterexample :
    (storeFind (exState 100).sessions "s1").isSome = true ∧
    (cleanup_old_sessions 100 0 (exState 100)).2 = exState 100 ∧
    (cleanup_old_sessions 100 0 (exState 100)).2.sessions ≠ [] :=
  ⟨rfl, rfl, by decide⟩

/-- C8 (amended): when every active session has a persisted metadata
entry under its own id whose last-activity is strictly earlier than the
sweep instant, the zero-age sweep empties the active store and archives
every such session under a directory name embedding its id and a
last-activity epoch, the moved directory containing a metadata file. -/
theorem sweep_zero_archives_all (now : Nat) (st : ServerState)
    (hnodup : (st.sessions.map Prod.fst).Nodup)
    (hcover : ∀ sid ∈ st.sessions.map Prod.fst,
        ∃ md, (sid, md) ∈ st.disk ∧ md.session_id = sid ∧ md.last_activity < now) :
    SweepConclusion now st := by
  unfold SweepConclusion
  have h0 : cleanup_old_sessions now 0 st = cleanupGo now 0 st.disk st [] := by
    unfold cleanup_old_sessions
    norm_num
  rw [h0]
  exact cleanupGo_empties now st.disk st [] hnodup hcover

/-- Witness for C8 (amended): a store holding the single session `s1`
whose persisted last-activity 50 precedes the sweep instant 100 satisfies
the hypotheses, and the sweep conclusion holds. -/
theorem sweep_zero_archives_all_witness :
    ((exState 50).sessions.map Prod.fst).Nodup ∧
    (∀ sid ∈ (exState 50).sessions.map Prod.fst,
        ∃ md, (sid, md) ∈ (exState 50).disk ∧ md.session_id = sid ∧ md.last_activity < 100) ∧
    SweepConclusion 100 (exState 50) := by
  refine ⟨by decide, ?_, ?_⟩
  · intro sid hsid
    simp only [exState, List.map_cons, List.map_nil, List.mem_singleton] at hsid
    subst hsid
    exact ⟨exMeta "s1" 50, by simp [exState], rfl, by decide⟩
  · exact sweep_zero_archives_all 100 (exState 50) (by decide)
      (by
        intro sid hsid
        simp only [exState, List.map_cons, List.map_nil, List.mem_singleton] at hsid
        subst hsid
        exact ⟨exMeta "s1" 50, by simp [exState], rfl, by decide⟩)
